import Mathlib

/-!
# Verification of the TA-Lib pattern-recognition microservice

Shallow embedding of `src/python-service/pattern_service.py`.

The service is a thin layer over the external TA-Lib library:
* `PATTERN_FUNCTIONS` — the static catalog of 61 candlestick pattern codes
  with display metadata, in declaration order (Python dicts preserve
  insertion order, so iteration order equals declaration order).
* `detect_all_patterns` — runs every catalog detector, catching per-detector
  exceptions, and collects non-zero last values into detection records.
* `detect_patterns` — the `/patterns` route handler: rejects sequences of
  fewer than 3 klines, otherwise scans.
* `list_patterns` — the `/patterns/list` route handler.
* `calculate_indicators` — the `/indicators` route handler.

The TA-Lib functions themselves (`talib.CDL*`, `talib.RSI/MACD/EMA`) are
external native code; the embedding passes them in as an environment
(`Talib`, `IndicatorImpls`), so theorems quantify over every possible
behaviour of the library.  Where a claim depends on the library's own
semantics (the `{-100, 0, +100}` output convention of the `CDL*` detectors,
the warm-up shape of `EMA`) that behaviour is taken from the specification,
as noted at each definition.

Numeric values travel through the service opaquely (it only converts and
forwards them), so prices are modelled by `F`, rationals extended with the
non-finite IEEE values; detector outputs are machine integers, modelled as
`Int` (the values are in `{-200, …, 200}`, far from any overflow).
-/

/-- A floating-point value as the service sees it: a finite number
(modelled exactly by a rational) or one of the non-finite IEEE values. -/
inductive F where
  | fin (q : ℚ)
  | nan
  | inf
  | ninf
deriving DecidableEq, Repr

/-- Whether a value is a finite number (not NaN or ±Infinity). -/
def F.isFinite : F → Bool
  | .fin _ => true
  | _ => false

/-- One kline of the `/patterns` request body:
`{"open": …, "high": …, "low": …, "close": …}`. -/
structure Candle where
  «open» : F
  high : F
  low : F
  close : F
deriving DecidableEq, Repr

/-- The display metadata stored for each pattern code in `PATTERN_FUNCTIONS`:
`{'name': …, 'type': …}`. -/
structure PatternInfo where
  name : String
  type : String
deriving DecidableEq, Repr

/-- The static catalog `PATTERN_FUNCTIONS` of `pattern_service.py`: all 61
TA-Lib candlestick pattern codes mapped to display metadata, in declaration
order (a Python `dict` iterates in insertion order). -/
def PATTERN_FUNCTIONS : List (String × PatternInfo) := [
  ("CDL2CROWS", ⟨"两只乌鸦", "bearish"⟩),
  ("CDL3BLACKCROWS", ⟨"三只乌鸦", "bearish"⟩),
  ("CDL3INSIDE", ⟨"三内部", "bullish"⟩),
  ("CDL3LINESTRIKE", ⟨"三线打击", "bullish"⟩),
  ("CDL3OUTSIDE", ⟨"三外部", "bullish"⟩),
  ("CDL3STARSINSOUTH", ⟨"南方三星", "bullish"⟩),
  ("CDL3WHITESOLDIERS", ⟨"三白兵", "bullish"⟩),
  ("CDLABANDONEDBABY", ⟨"弃婴", "reversal"⟩),
  ("CDLADVANCEBLOCK", ⟨"前进受阻", "bearish"⟩),
  ("CDLBELTHOLD", ⟨"捉腰带", "reversal"⟩),
  ("CDLBREAKAWAY", ⟨"脱离", "reversal"⟩),
  ("CDLCLOSINGMARUBOZU", ⟨"收盘光头光脚", "continuation"⟩),
  ("CDLCONCEALBABYSWALL", ⟨"藏婴吞没", "bullish"⟩),
  ("CDLCOUNTERATTACK", ⟨"反击线", "reversal"⟩),
  ("CDLDARKCLOUDCOVER", ⟨"乌云盖顶", "bearish"⟩),
  ("CDLDOJI", ⟨"十字星", "neutral"⟩),
  ("CDLDOJISTAR", ⟨"十字星线", "reversal"⟩),
  ("CDLDRAGONFLYDOJI", ⟨"蜻蜓十字", "bullish"⟩),
  ("CDLENGULFING", ⟨"吞没形态", "reversal"⟩),
  ("CDLEVENINGDOJISTAR", ⟨"黄昏十字星", "bearish"⟩),
  ("CDLEVENINGSTAR", ⟨"黄昏之星", "bearish"⟩),
  ("CDLGAPSIDESIDEWHITE", ⟨"向上跳空并列阳线", "bullish"⟩),
  ("CDLGRAVESTONEDOJI", ⟨"墓碑十字", "bearish"⟩),
  ("CDLHAMMER", ⟨"锤子线", "bullish"⟩),
  ("CDLHANGINGMAN", ⟨"上吊线", "bearish"⟩),
  ("CDLHARAMI", ⟨"孕线", "reversal"⟩),
  ("CDLHARAMICROSS", ⟨"十字孕线", "reversal"⟩),
  ("CDLHIGHWAVE", ⟨"高浪线", "neutral"⟩),
  ("CDLHIKKAKE", ⟨"陷阱", "reversal"⟩),
  ("CDLHIKKAKEMOD", ⟨"修正陷阱", "reversal"⟩),
  ("CDLHOMINGPIGEON", ⟨"家鸽", "bullish"⟩),
  ("CDLIDENTICAL3CROWS", ⟨"相同三乌鸦", "bearish"⟩),
  ("CDLINNECK", ⟨"颈内线", "bearish"⟩),
  ("CDLINVERTEDHAMMER", ⟨"倒锤头", "bullish"⟩),
  ("CDLKICKING", ⟨"踢腿", "reversal"⟩),
  ("CDLKICKINGBYLENGTH", ⟨"长踢腿", "reversal"⟩),
  ("CDLLADDERBOTTOM", ⟨"梯底", "bullish"⟩),
  ("CDLLONGLEGGEDDOJI", ⟨"长脚十字", "neutral"⟩),
  ("CDLLONGLINE", ⟨"长线", "continuation"⟩),
  ("CDLMARUBOZU", ⟨"光头光脚", "continuation"⟩),
  ("CDLMATCHINGLOW", ⟨"相同低价", "bullish"⟩),
  ("CDLMATHOLD", ⟨"铺垫", "bullish"⟩),
  ("CDLMORNINGDOJISTAR", ⟨"早晨十字星", "bullish"⟩),
  ("CDLMORNINGSTAR", ⟨"早晨之星", "bullish"⟩),
  ("CDLONNECK", ⟨"颈上线", "bearish"⟩),
  ("CDLPIERCING", ⟨"刺透形态", "bullish"⟩),
  ("CDLRICKSHAWMAN", ⟨"黄包车夫", "neutral"⟩),
  ("CDLRISEFALL3METHODS", ⟨"上升/下降三法", "continuation"⟩),
  ("CDLSEPARATINGLINES", ⟨"分离线", "continuation"⟩),
  ("CDLSHOOTINGSTAR", ⟨"流星线", "bearish"⟩),
  ("CDLSHORTLINE", ⟨"短线", "neutral"⟩),
  ("CDLSPINNINGTOP", ⟨"纺锤线", "neutral"⟩),
  ("CDLSTALLEDPATTERN", ⟨"停顿形态", "bearish"⟩),
  ("CDLSTICKSANDWICH", ⟨"条形三明治", "bullish"⟩),
  ("CDLTAKURI", ⟨"探水竿", "bullish"⟩),
  ("CDLTASUKIGAP", ⟨"跳空并列", "continuation"⟩),
  ("CDLTHRUSTING", ⟨"插入", "bearish"⟩),
  ("CDLTRISTAR", ⟨"三星", "reversal"⟩),
  ("CDLUNIQUE3RIVER", ⟨"独特三河", "bullish"⟩),
  ("CDLUPSIDEGAP2CROWS", ⟨"向上跳空的两只乌鸦", "bearish"⟩),
  ("CDLXSIDEGAP3METHODS", ⟨"上升/下降跳空三法", "continuation"⟩)]

/-- The external TA-Lib pattern environment: for a pattern code (looked up
with `getattr(talib, func_name)`) and the four OHLC arrays, either the
detector raises an exception (`error`, which also covers a failing
`getattr`) or it returns an integer result array (`ok`). -/
def Talib : Type :=
  String → List F → List F → List F → List F → Except String (List Int)

/-- One entry of the detection result list built by `detect_all_patterns`. -/
structure DetectionRecord where
  name : String
  type : String
  signal : String
  confidence : Int
  code : String
deriving DecidableEq, Repr

/-- The body of the `for func_name, pattern_info in PATTERN_FUNCTIONS.items()`
loop of `detect_all_patterns`, for one catalog entry: run the detector inside
`try`; on an exception the entry contributes nothing (the exception is logged
and swallowed); otherwise, when the result is non-empty and its last value is
non-zero, contribute a record with `confidence = abs(result[-1])` and
`signal = 'bullish' if result[-1] > 0 else 'bearish'`. -/
def detectOne (talib : Talib) (o h l c : List F) (entry : String × PatternInfo) :
    Option DetectionRecord :=
  match talib entry.1 o h l c with
  | .error _ => none
  | .ok result =>
    if 0 < result.length ∧ result.getLastD 0 ≠ 0 then
      some { name := entry.2.name, type := entry.2.type,
             signal := if 0 < result.getLastD 0 then "bullish" else "bearish",
             confidence := |result.getLastD 0|,
             code := entry.1 }
    else none

/-- `detect_all_patterns` of `pattern_service.py`: iterate the catalog in
declaration order, appending a record for each detector whose last value is
non-zero; a detector that raises is logged and skipped. -/
def detect_all_patterns (talib : Talib) (o h l c : List F) : List DetectionRecord :=
  PATTERN_FUNCTIONS.filterMap (detectOne talib o h l c)

/-- The successful response body of the `/patterns` route. -/
structure ScanResponse where
  success : Bool
  patterns : List DetectionRecord
  total : Nat
deriving DecidableEq, Repr

/-- The `/patterns` route handler `detect_patterns`: with `klines` the parsed
request list (`data.get('klines', []`) yields `[]` when the key is absent), the
handler returns the error response `('Need at least 3 klines', 400)` when
`not klines or len(klines) < 3` — i.e. exactly when fewer than 3 klines were
supplied — and otherwise builds the four price arrays and scans. -/
def detect_patterns (talib : Talib) (klines : List Candle) :
    Except (String × Nat) ScanResponse :=
  if klines.length < 3 then
    .error ("Need at least 3 klines", 400)
  else
    let patterns := detect_all_patterns talib
      (klines.map (·.«open»)) (klines.map (·.high))
      (klines.map (·.low)) (klines.map (·.close))
    .ok { success := true, patterns := patterns, total := patterns.length }

/-- One entry of the `/patterns/list` response: `{'code': code, **info}`. -/
structure CatalogEntry where
  code : String
  name : String
  type : String
deriving DecidableEq, Repr

/-- The response body of the `/patterns/list` route. -/
structure ListResponse where
  total : Nat
  patterns : List CatalogEntry
deriving DecidableEq, Repr

/-- The `/patterns/list` route handler `list_patterns`: the catalog itself,
flattened to `{code, name, type}` records, with its size. -/
def list_patterns : ListResponse :=
  { total := PATTERN_FUNCTIONS.length,
    patterns := PATTERN_FUNCTIONS.map (fun e => ⟨e.1, e.2.name, e.2.type⟩) }

/-- The external TA-Lib indicator environment: `talib.RSI(close, timeperiod)`,
`talib.MACD(close)` (three parallel arrays) and `talib.EMA(close, timeperiod)`,
each either raising an exception or returning its series. -/
structure IndicatorImpls where
  RSI : List F → Nat → Except String (List F)
  MACD : List F → Except String (List F × List F × List F)
  EMA : List F → Nat → Except String (List F)

/-- The `results` dict built by the `/indicators` route: keys `rsi`, `macd`,
`ema7`, `ema25`, each present only when the corresponding indicator name was
requested. -/
structure IndicatorResults where
  rsi : Option (List F) := none
  macd : Option (List F × List F × List F) := none
  ema7 : Option (List F) := none
  ema25 : Option (List F) := none
deriving DecidableEq, Repr

/-- The computational core of the `/indicators` route handler
`calculate_indicators`, after the request fields are extracted: build the
`results` dict by the three membership tests, in source order; any exception
raised by a TA-Lib call is caught by the surrounding `try` and surfaced as the
error response.  No validation of `close` is performed anywhere. -/
def calcIndicatorsCore (t : IndicatorImpls) (close : List F)
    (indicators : List String) : Except String IndicatorResults := do
  let r0 : IndicatorResults := {}
  let r1 ←
    if "RSI" ∈ indicators then
      (fun v => { r0 with rsi := some v }) <$> t.RSI close 14
    else pure r0
  let r2 ←
    if "MACD" ∈ indicators then
      (fun v => { r1 with macd := some v }) <$> t.MACD close
    else pure r1
  let r3 ←
    if "EMA" ∈ indicators then do
      let e7 ← t.EMA close 7
      let e25 ← t.EMA close 25
      pure { r2 with ema7 := some e7, ema25 := some e25 }
    else pure r2
  pure r3

/-- The parsed JSON body of an `/indicators` request; `none` models an absent
key (`data.get(key, [])` supplies the default). -/
structure IndicatorRequest where
  close : Option (List F)
  indicators : Option (List String)

/-- The `/indicators` route handler `calculate_indicators`: extract `close`
(defaulting to `[]`) and `indicators` (defaulting to `[]`) and run the core. -/
def calculate_indicators (t : IndicatorImpls) (data : IndicatorRequest) :
    Except String IndicatorResults :=
  calcIndicatorsCore t (data.close.getD []) (data.indicators.getD [])

/-- Modelled from the spec: `talib.EMA` is external native code not contained
in this repository, so its recursion is taken from the specification —
seed at index `period - 1` with the simple average of the first `period`
values, then `out[i] = α * x[i] + (1 - α) * out[i-1]` with
`α = 2 / (period + 1)`; entries before the seed are undefined (`null`).
This is the recursive tail after the seed. Rationals stand in for IEEE
doubles: the claims verified about the series concern only its defined/null
shape, which exact arithmetic preserves. -/
def emaRec (α : ℚ) : ℚ → List ℚ → List ℚ
  | _, [] => []
  | prev, x :: xs =>
    let cur := α * x + (1 - α) * prev
    cur :: emaRec α cur xs

/-- Modelled from the spec: the full `talib.EMA(xs, timeperiod := p)` series
(see `emaRec` for what is missing from the repository and how it is
modelled).  `none` is the `null` warm-up marker; the output has the length of
the input, all-`null` when the input is shorter than the period. -/
def ema (p : Nat) (xs : List ℚ) : List (Option ℚ) :=
  if p = 0 ∨ xs.length < p then
    List.replicate xs.length none
  else
    List.replicate (p - 1) none ++
      (some ((xs.take p).sum / p) ::
        (emaRec (2 / (p + 1)) ((xs.take p).sum / p) (xs.drop p)).map some)

/-- A detector environment answering every query with an all-100 series of
the candle count, for the C2 witness. -/
def TW : Talib := fun _ _ _ _ cl => .ok (cl.map fun _ => (100 : Int))

/-- A three-candle sequence for the C2 witness. -/
def K3 : List Candle := List.replicate 3 ⟨.fin 1, .fin 1, .fin 1, .fin 1⟩

/-- A detector environment answering every query with `[100]`, for the C3
witness. -/
def T100 : Talib := fun _ _ _ _ _ => .ok [100]

/-- A detector environment answering every query with an empty series, for
the C4 witness. -/
def TE : Talib := fun _ _ _ _ _ => .ok []

/-- A three-candle sequence for the C4 witness. -/
def KW : List Candle := List.replicate 3 ⟨.fin 2, .fin 2, .fin 2, .fin 2⟩

/-- An indicator environment answering every query with empty series, for
the indicator-route witnesses and counterexample. -/
def trivImpls : IndicatorImpls :=
  { RSI := fun _ _ => .ok []
    MACD := fun _ => .ok ([], [], [])
    EMA := fun _ _ => .ok [] }

/-! ## Helper lemmas about the scan loop -/

/-- Inversion for one loop iteration: a contributed record determines a
successful detector call with a non-empty result whose last value is
non-zero, and fixes every field of the record. -/
lemma detectOne_some_inv {talib : Talib} {o h l c : List F}
    {e : String × PatternInfo} {rec : DetectionRecord}
    (hd : detectOne talib o h l c e = some rec) :
    ∃ r, talib e.1 o h l c = .ok r ∧ 0 < r.length ∧ r.getLastD 0 ≠ 0 ∧
      rec = { name := e.2.name, type := e.2.type,
              signal := if 0 < r.getLastD 0 then "bullish" else "bearish",
              confidence := |r.getLastD 0|, code := e.1 } := by
  unfold detectOne at hd
  cases htl : talib e.1 o h l c with
  | error err => rw [htl] at hd; exact absurd hd (by simp)
  | ok r =>
    rw [htl] at hd
    dsimp only at hd
    by_cases hcond : 0 < r.length ∧ r.getLastD 0 ≠ 0
    · rw [if_pos hcond] at hd
      exact ⟨r, rfl, hcond.1, hcond.2, (Option.some.inj hd).symm⟩
    · rw [if_neg hcond] at hd; cases hd

/-- Forward direction of one loop iteration: a successful detector call with
a non-empty result whose last value is non-zero contributes a record. -/
lemma detectOne_some_of {talib : Talib} {o h l c : List F}
    {e : String × PatternInfo} {r : List Int}
    (htl : talib e.1 o h l c = .ok r) (hlen : 0 < r.length)
    (hnz : r.getLastD 0 ≠ 0) :
    detectOne talib o h l c e =
      some { name := e.2.name, type := e.2.type,
             signal := if 0 < r.getLastD 0 then "bullish" else "bearish",
             confidence := |r.getLastD 0|, code := e.1 } := by
  unfold detectOne
  rw [htl]
  dsimp only
  rw [if_pos ⟨hlen, hnz⟩]

/-- The codes of the records contributed by a catalog segment form an ordered
subsequence of that segment's codes. -/
lemma detect_codes_sublist (talib : Talib) (o h l c : List F) :
    ∀ cat : List (String × PatternInfo),
      ((cat.filterMap (detectOne talib o h l c)).map (·.code)).Sublist
        (cat.map Prod.fst)
  | [] => by simp
  | e :: t => by
    cases hd : detectOne talib o h l c e with
    | none =>
      rw [List.filterMap_cons_none hd]
      exact (detect_codes_sublist talib o h l c t).cons _
    | some rec =>
      have hcode : rec.code = e.1 := by
        obtain ⟨r, -, -, -, hrec⟩ := detectOne_some_inv hd
        rw [hrec]
      rw [List.filterMap_cons_some hd, List.map_cons, List.map_cons,
        hcode]
      exact (detect_codes_sublist talib o h l c t).cons₂ _

/-- Any contributed record's code is a code of the catalog segment. -/
lemma code_mem_of_mem_filterMap {talib : Talib} {o h l c : List F}
    {cat : List (String × PatternInfo)} {rec : DetectionRecord}
    (hm : rec ∈ cat.filterMap (detectOne talib o h l c)) :
    rec.code ∈ cat.map Prod.fst :=
  (detect_codes_sublist talib o h l c cat).subset
    (List.mem_map_of_mem (·.code) hm)

/-- When the catalog segment's codes are distinct, at most one contributed
record carries any given code. -/
lemma countP_code_le_one (talib : Talib) (o h l c : List F) (code : String) :
    ∀ cat : List (String × PatternInfo), (cat.map Prod.fst).Nodup →
      (cat.filterMap (detectOne talib o h l c)).countP
        (fun rec => rec.code = code) ≤ 1
  | [], _ => by simp
  | e :: t, hnd => by
    rw [List.map_cons, List.nodup_cons] at hnd
    cases hd : detectOne talib o h l c e with
    | none =>
      rw [List.filterMap_cons_none hd]
      exact countP_code_le_one talib o h l c code t hnd.2
    | some rec =>
      have hcode : rec.code = e.1 := by
        obtain ⟨r, -, -, -, hrec⟩ := detectOne_some_inv hd
        rw [hrec]
      rw [List.filterMap_cons_some hd, List.countP_cons]
      by_cases hc : rec.code = code
      · have hzero : (t.filterMap (detectOne talib o h l c)).countP
            (fun r => r.code = code) = 0 := by
          rw [List.countP_eq_zero]
          intro rec' hrec'
          have hmem := code_mem_of_mem_filterMap hrec'
          simp only [decide_eq_true_eq]
          intro hc'
          apply hnd.1
          rw [← hcode, hc, ← hc']
          exact hmem
        simp [hzero, hc]
      · simp only [hc, decide_False, ite_false, add_zero]
        exact countP_code_le_one talib o h l c code t hnd.2

/-- The catalog's 61 pattern codes are pairwise distinct. -/
lemma pattern_codes_nodup : (PATTERN_FUNCTIONS.map Prod.fst).Nodup := by
  decide

/-- The codes listed by `list_patterns` are exactly the catalog's codes. -/
lemma list_patterns_codes :
    list_patterns.patterns.map (·.code) = PATTERN_FUNCTIONS.map Prod.fst := by
  simp [list_patterns, List.map_map]

/-! ## Helper lemmas about the EMA recursion -/

/-- The recursive tail of the EMA has one output per input. -/
lemma emaRec_length (α : ℚ) (s : ℚ) (xs : List ℚ) :
    (emaRec α s xs).length = xs.length := by
  induction xs generalizing s with
  | nil => rfl
  | cons x t ih => simp [emaRec, ih]

/-- The EMA output series has the length of its input. -/
lemma ema_length (p : Nat) (xs : List ℚ) (hp : 1 ≤ p) :
    (ema p xs).length = xs.length := by
  unfold ema
  by_cases hc : p = 0 ∨ xs.length < p
  · rw [if_pos hc, List.length_replicate]
  · rw [if_neg hc]
    push_neg at hc
    simp only [List.length_append, List.length_replicate, List.length_cons,
      List.length_map, emaRec_length, List.length_drop]
    omega

/-- For an input shorter than the period, every EMA entry is `null`. -/
lemma ema_all_none_of_short (p : Nat) (xs : List ℚ) (hshort : xs.length < p) :
    ∀ o ∈ ema p xs, o = none := by
  unfold ema
  rw [if_pos (Or.inr hshort)]
  intro o ho
  exact (List.eq_of_mem_replicate ho)

/-- For an input at least as long as the period, an EMA entry is defined
exactly from index `p - 1` on. -/
lemma ema_get_isSome_iff (p : Nat) (xs : List ℚ) (hp : 1 ≤ p)
    (hlong : p ≤ xs.length) (i : Nat) (hi : i < (ema p xs).length) :
    ((ema p xs).get ⟨i, hi⟩).isSome = true ↔ p - 1 ≤ i := by
  have hc : ¬(p = 0 ∨ xs.length < p) := by omega
  have hrw : ema p xs = List.replicate (p - 1) (none : Option ℚ) ++
      (some ((xs.take p).sum / p) ::
        (emaRec (2 / (p + 1)) ((xs.take p).sum / p) (xs.drop p)).map some) := by
    unfold ema
    rw [if_neg hc]
  have hi' : i < (ema p xs).length := hi
  rw [hrw] at hi'
  rw [List.get_of_eq hrw ⟨i, hi⟩, List.get_eq_getElem]
  by_cases hlt : i < p - 1
  · rw [List.getElem_append_left (by simpa using hlt)]
    simp [List.getElem_replicate]
    omega
  · push_neg at hlt
    rw [List.getElem_append_right (by simpa using hlt)]
    have hmem := List.getElem_mem
      (l := some ((xs.take p).sum / p) ::
        (emaRec (2 / (p + 1)) ((xs.take p).sum / p) (xs.drop p)).map some)
      (n := i - (List.replicate (p - 1) (none : Option ℚ)).length)
      (by
        simp only [List.length_append] at hi'
        simp only [List.length_replicate] at hi' ⊢
        omega)
    rcases List.mem_cons.mp hmem with hcase | hcase
    · rw [hcase]
      simpa using hlt
    · obtain ⟨q, -, hq⟩ := List.mem_map.mp hcase
      rw [← hq]
      simpa using hlt

/-- The last element of a non-empty list, with default, is a member. -/
lemma getLastD_mem_self {r : List Int} (h : 0 < r.length) : r.getLastD 0 ∈ r := by
  cases r with
  | nil => simp at h
  | cons x t =>
    rw [List.getLastD_cons]
    exact List.getLastD_mem_cons t x

/-! ## The claims -/

/-- C1: during a scan, a detector whose evaluation raises an exception is
caught (and logged), that pattern alone is treated as not detected, and the
scan still returns the detection results of every other detector — the scan
behaves exactly as if the faulty detector had reported "no detection", and
`detect_all_patterns` is a total function, so the scan as a whole always
returns. -/
theorem detect_scan_fault_isolation (talib : Talib) (o h l c : List F)
    (code : String) (e : String) (herr : talib code o h l c = .error e) :
    code ∉ (detect_all_patterns talib o h l c).map (·.code) ∧
    detect_all_patterns talib o h l c =
      detect_all_patterns
        (fun cd => if cd = code then fun _ _ _ _ => .ok [] else talib cd)
        o h l c := by
  constructor
  · intro hmem
    obtain ⟨rec, hrec, hcode⟩ := List.mem_map.mp hmem
    obtain ⟨entry, hentry, hd⟩ := List.mem_filterMap.mp hrec
    obtain ⟨r, htl, -, -, hfields⟩ := detectOne_some_inv hd
    have hent : entry.1 = code := by rw [hfields] at hcode; exact hcode
    rw [hent, herr] at htl
    cases htl
  · unfold detect_all_patterns
    apply List.filterMap_congr
    intro entry _
    by_cases hc : entry.1 = code
    · unfold detectOne
      rw [hc, herr]
      simp
    · unfold detectOne
      simp only [hc, if_false, ite_false]

/-- Witness for C1: an environment whose `CDLDOJI` detector raises while every
other detector reports `[100]`; the faulty pattern is absent and the scan
equals the scan with that detector silenced. -/
theorem detect_scan_fault_isolation_witness :
    "CDLDOJI" ∉ (detect_all_patterns
        (fun cd _ _ _ _ => if cd = "CDLDOJI" then .error "boom" else .ok [100])
        [] [] [] []).map (·.code) ∧
    detect_all_patterns
        (fun cd _ _ _ _ => if cd = "CDLDOJI" then .error "boom" else .ok [100])
        [] [] [] [] =
      detect_all_patterns
        (fun cd => if cd = "CDLDOJI" then fun _ _ _ _ => .ok []
          else fun _ _ _ _ =>
            if cd = "CDLDOJI" then .error "boom" else .ok [100])
        [] [] [] [] :=
  detect_scan_fault_isolation
    (fun cd _ _ _ _ => if cd = "CDLDOJI" then .error "boom" else .ok [100])
    [] [] [] [] "CDLDOJI" "boom" (by simp)

/-- C5: the detection results of a scan are ordered by the catalog's
declaration order — the result's code sequence is an ordered subsequence of
the catalog's code sequence, for every behaviour of the detector library. -/
theorem detect_scan_catalog_order (talib : Talib) (o h l c : List F) :
    ((detect_all_patterns talib o h l c).map (·.code)).Sublist
      (PATTERN_FUNCTIONS.map Prod.fst) :=
  detect_codes_sublist talib o h l c PATTERN_FUNCTIONS

/-- C6: the codes listed by the catalog query `list_patterns` are exactly the
codes that can appear in a scan result — every scanned code is listed, and
every listed code is produced by the scan under a suitable detector
behaviour. -/
theorem scan_catalog_roundtrip :
    (∀ (talib : Talib) (o h l c : List F),
      ∀ rec ∈ detect_all_patterns talib o h l c,
        rec.code ∈ list_patterns.patterns.map (·.code)) ∧
    (∀ code ∈ list_patterns.patterns.map (·.code),
      ∃ (talib : Talib) (o h l c : List F),
        code ∈ (detect_all_patterns talib o h l c).map (·.code)) := by
  constructor
  · intro talib o h l c rec hrec
    rw [list_patterns_codes]
    exact code_mem_of_mem_filterMap hrec
  · intro code hcode
    rw [list_patterns_codes] at hcode
    obtain ⟨entry, hentry, hfst⟩ := List.mem_map.mp hcode
    refine ⟨fun _ _ _ _ _ => .ok [100], [], [], [], [], ?_⟩
    apply List.mem_map.mpr
    refine ⟨_, List.mem_filterMap.mpr ⟨entry, hentry,
      detectOne_some_of (r := [100]) rfl (by simp) (by simp)⟩, hfst⟩

/-- Witness for C6: the catalog code `CDLDOJI` is produced by a scan under
some detector behaviour. -/
theorem scan_catalog_roundtrip_witness :
    ∃ (talib : Talib) (o h l c : List F),
      "CDLDOJI" ∈ (detect_all_patterns talib o h l c).map (·.code) :=
  scan_catalog_roundtrip.2 "CDLDOJI" (by decide)

/-- C2: over a candle sequence of length at least 3 — with the detectors
returning, as TA-Lib does, one output per input candle — a pattern's code
appears in the scan exactly when its detector succeeds with a non-zero value
at the last index; at most one record per pattern is produced, and no record
has confidence 0. -/
theorem detect_scan_nonzero_last_iff (talib : Talib) (klines : List Candle)
    (code : String) (hlen : 3 ≤ klines.length)
    (hres : ∀ cd r, talib cd (klines.map (·.«open»)) (klines.map (·.high))
        (klines.map (·.low)) (klines.map (·.close)) = .ok r →
        r.length = klines.length)
    (hcode : code ∈ PATTERN_FUNCTIONS.map Prod.fst) :
    (code ∈ (detect_all_patterns talib (klines.map (·.«open»))
        (klines.map (·.high)) (klines.map (·.low))
        (klines.map (·.close))).map (·.code) ↔
      ∃ r, talib code (klines.map (·.«open»)) (klines.map (·.high))
          (klines.map (·.low)) (klines.map (·.close)) = .ok r ∧
        r.length = klines.length ∧ r.getLastD 0 ≠ 0) ∧
    (detect_all_patterns talib (klines.map (·.«open»)) (klines.map (·.high))
        (klines.map (·.low)) (klines.map (·.close))).countP
      (fun rec => rec.code = code) ≤ 1 ∧
    (∀ rec ∈ detect_all_patterns talib (klines.map (·.«open»))
        (klines.map (·.high)) (klines.map (·.low)) (klines.map (·.close)),
      rec.confidence ≠ 0) := by
  refine ⟨⟨?_, ?_⟩, ?_, ?_⟩
  · intro hmem
    obtain ⟨rec, hrec, hreccode⟩ := List.mem_map.mp hmem
    obtain ⟨entry, hentry, hd⟩ := List.mem_filterMap.mp hrec
    obtain ⟨r, htl, hlen0, hnz, hfields⟩ := detectOne_some_inv hd
    have hent : entry.1 = code := by rw [hfields] at hreccode; exact hreccode
    rw [hent] at htl
    exact ⟨r, htl, hres code r htl, hnz⟩
  · rintro ⟨r, htl, hrlen, hnz⟩
    obtain ⟨entry, hentry, hfst⟩ := List.mem_map.mp hcode
    rw [← hfst] at htl
    apply List.mem_map.mpr
    refine ⟨_, List.mem_filterMap.mpr ⟨entry, hentry,
      detectOne_some_of htl (by omega) hnz⟩, hfst⟩
  · exact countP_code_le_one talib _ _ _ _ code PATTERN_FUNCTIONS
      pattern_codes_nodup
  · intro rec hrec
    obtain ⟨entry, hentry, hd⟩ := List.mem_filterMap.mp hrec
    obtain ⟨r, htl, hlen0, hnz, hfields⟩ := detectOne_some_inv hd
    rw [hfields]
    exact abs_ne_zero.mpr hnz

/-- Witness for C2: on a concrete three-candle sequence with the all-100
environment, the scan keeps at most one record for `CDLDOJI`. -/
theorem detect_scan_nonzero_last_iff_witness :
    3 ≤ K3.length ∧
    (detect_all_patterns TW (K3.map (·.«open»)) (K3.map (·.high))
        (K3.map (·.low)) (K3.map (·.close))).countP
      (fun rec => rec.code = "CDLDOJI") ≤ 1 :=
  ⟨by decide,
    (detect_scan_nonzero_last_iff TW K3 "CDLDOJI" (by decide)
      (fun cd r hr => by
        simp only [TW] at hr
        cases hr
        simp [K3])
      (by decide)).2.1⟩

/-- C3: under the library's single-strength convention (every detector value
is −100, 0 or +100), every record of a scan has confidence exactly 100 and
signal `bullish` or `bearish`, with `bullish` exactly when the detector's
last value is positive and `bearish` exactly when it is negative. -/
theorem detect_scan_confidence_domain (talib : Talib) (o h l c : List F)
    (hconv : ∀ cd r, talib cd o h l c = .ok r → ∀ v ∈ r,
      v = -100 ∨ v = 0 ∨ v = 100) :
    ∀ rec ∈ detect_all_patterns talib o h l c,
      rec.confidence = 100 ∧
      (rec.signal = "bullish" ∨ rec.signal = "bearish") ∧
      ∃ r, talib rec.code o h l c = .ok r ∧ 0 < r.length ∧
        r.getLastD 0 ≠ 0 ∧
        (rec.signal = "bullish" ↔ 0 < r.getLastD 0) ∧
        (rec.signal = "bearish" ↔ r.getLastD 0 < 0) := by
  intro rec hrec
  obtain ⟨entry, hentry, hd⟩ := List.mem_filterMap.mp hrec
  obtain ⟨r, htl, hlen0, hnz, hfields⟩ := detectOne_some_inv hd
  subst hfields
  rcases hconv entry.1 r htl (r.getLastD 0) (getLastD_mem_self hlen0)
    with hval | hval | hval
  · exact ⟨by show |r.getLastD 0| = 100; rw [hval]; decide,
      Or.inr (by
        show (if 0 < r.getLastD 0 then "bullish" else "bearish") = "bearish"
        rw [hval]; decide),
      r, htl, hlen0, hnz,
      by
        show ((if 0 < r.getLastD 0 then "bullish" else "bearish") =
          "bullish") ↔ 0 < r.getLastD 0
        rw [hval]; decide,
      by
        show ((if 0 < r.getLastD 0 then "bullish" else "bearish") =
          "bearish") ↔ r.getLastD 0 < 0
        rw [hval]; decide⟩
  · exact absurd hval hnz
  · exact ⟨by show |r.getLastD 0| = 100; rw [hval]; decide,
      Or.inl (by
        show (if 0 < r.getLastD 0 then "bullish" else "bearish") = "bullish"
        rw [hval]; decide),
      r, htl, hlen0, hnz,
      by
        show ((if 0 < r.getLastD 0 then "bullish" else "bearish") =
          "bullish") ↔ 0 < r.getLastD 0
        rw [hval]; decide,
      by
        show ((if 0 < r.getLastD 0 then "bullish" else "bearish") =
          "bearish") ↔ r.getLastD 0 < 0
        rw [hval]; decide⟩

/-- Witness for C3: the first record of a concrete scan has confidence 100,
a bullish signal, and a positive detector value behind it. -/
theorem detect_scan_confidence_domain_witness :
    (⟨"两只乌鸦", "bearish", "bullish", 100, "CDL2CROWS"⟩ : DetectionRecord)
        ∈ detect_all_patterns T100 [] [] [] [] ∧
    ((⟨"两只乌鸦", "bearish", "bullish", 100, "CDL2CROWS"⟩ :
        DetectionRecord).confidence = 100 ∧
      ((⟨"两只乌鸦", "bearish", "bullish", 100, "CDL2CROWS"⟩ :
          DetectionRecord).signal = "bullish" ∨
        (⟨"两只乌鸦", "bearish", "bullish", 100, "CDL2CROWS"⟩ :
          DetectionRecord).signal = "bearish") ∧
      ∃ r, T100 (⟨"两只乌鸦", "bearish", "bullish", 100, "CDL2CROWS"⟩ :
          DetectionRecord).code [] [] [] [] = .ok r ∧ 0 < r.length ∧
        r.getLastD 0 ≠ 0 ∧
        ((⟨"两只乌鸦", "bearish", "bullish", 100, "CDL2CROWS"⟩ :
          DetectionRecord).signal = "bullish" ↔ 0 < r.getLastD 0) ∧
        ((⟨"两只乌鸦", "bearish", "bullish", 100, "CDL2CROWS"⟩ :
          DetectionRecord).signal = "bearish" ↔ r.getLastD 0 < 0)) :=
  have hm : (⟨"两只乌鸦", "bearish", "bullish", 100, "CDL2CROWS"⟩ :
      DetectionRecord) ∈ detect_all_patterns T100 [] [] [] [] := by decide
  ⟨hm, detect_scan_confidence_domain T100 [] [] [] []
    (fun cd r hr v hv => by
      simp only [T100] at hr
      cases hr
      simp only [List.mem_singleton] at hv
      simp [hv]) _ hm⟩

/-- C4: the `/patterns` route rejects a request whose candle sequence has
fewer than 3 candles (including the empty sequence) with the
insufficient-data error and produces no detection results; a sequence of
length at least 3 passes the check and the scan responds successfully. -/
theorem detect_patterns_min_length (talib : Talib) (klines : List Candle) :
    (klines.length < 3 →
      detect_patterns talib klines = .error ("Need at least 3 klines", 400)) ∧
    (3 ≤ klines.length →
      detect_patterns talib klines = .ok
        { success := true,
          patterns := detect_all_patterns talib (klines.map (·.«open»))
            (klines.map (·.high)) (klines.map (·.low))
            (klines.map (·.close)),
          total := (detect_all_patterns talib (klines.map (·.«open»))
            (klines.map (·.high)) (klines.map (·.low))
            (klines.map (·.close))).length }) := by
  constructor
  · intro hlt
    unfold detect_patterns
    rw [if_pos hlt]
  · intro hge
    unfold detect_patterns
    rw [if_neg (by omega)]

/-- Witness for C4: the empty sequence is rejected with the
insufficient-data error, and a concrete three-candle sequence is answered
successfully. -/
theorem detect_patterns_min_length_witness :
    detect_patterns TE [] = .error ("Need at least 3 klines", 400) ∧
    detect_patterns TE KW = .ok
      { success := true,
        patterns := detect_all_patterns TE (KW.map (·.«open»))
          (KW.map (·.high)) (KW.map (·.low)) (KW.map (·.close)),
        total := (detect_all_patterns TE (KW.map (·.«open»))
          (KW.map (·.high)) (KW.map (·.low)) (KW.map (·.close))).length } :=
  ⟨(detect_patterns_min_length TE []).1 (by decide),
    (detect_patterns_min_length TE KW).2 (by decide)⟩

/-- C7 counterexample: the claim "every indicator request fails with a
validation error whenever the closing-price series is empty or contains a
non-finite value" is false on the code — with no recognized indicator
requested, the route succeeds (empty mapping) both on a series containing
NaN and on the empty series, because the handler never validates `close`. -/
theorem calc_indicators_no_validation_cex :
    F.nan.isFinite = false ∧
    calcIndicatorsCore trivImpls [F.nan] [] = .ok {} ∧
    calcIndicatorsCore trivImpls [] [] = .ok {} :=
  ⟨rfl, rfl, rfl⟩

/-- C7 (amended): the `/indicators` route performs no validation of the
closing-price series: whenever the request names none of `RSI`, `MACD`,
`EMA`, the call succeeds with an empty mapping regardless of the series —
empty or non-finite included; failures can only come from the underlying
indicator computations. -/
theorem calc_indicators_no_validation (t : IndicatorImpls) (close : List F)
    (indicators : List String) (hr : "RSI" ∉ indicators)
    (hm : "MACD" ∉ indicators) (he : "EMA" ∉ indicators) :
    calcIndicatorsCore t close indicators = .ok {} := by
  simp only [calcIndicatorsCore, hr, hm, he, if_false, ite_false, pure_bind]
  rfl

/-- Witness for amended C7: a concrete request naming only an unrecognized
indicator succeeds with the empty mapping. -/
theorem calc_indicators_no_validation_witness :
    calcIndicatorsCore trivImpls [F.fin 5] ["FOO"] = .ok {} :=
  calc_indicators_no_validation trivImpls [F.fin 5] ["FOO"]
    (by decide) (by decide) (by decide)

/-- C9: unknown indicator names are ignored without error — appending any
names other than `RSI`, `MACD`, `EMA` to a request leaves the route's
response unchanged (same success or failure, same series for the recognized
names). -/
theorem calc_indicators_unknown_ignored (t : IndicatorImpls) (close : List F)
    (indicators extra : List String)
    (hx : ∀ x ∈ extra, x ≠ "RSI" ∧ x ≠ "MACD" ∧ x ≠ "EMA") :
    calcIndicatorsCore t close (indicators ++ extra) =
      calcIndicatorsCore t close indicators := by
  have hR : ("RSI" ∈ indicators ++ extra) ↔ "RSI" ∈ indicators := by
    rw [List.mem_append, or_iff_left]
    intro hmem
    exact (hx _ hmem).1 rfl
  have hM : ("MACD" ∈ indicators ++ extra) ↔ "MACD" ∈ indicators := by
    rw [List.mem_append, or_iff_left]
    intro hmem
    exact (hx _ hmem).2.1 rfl
  have hE : ("EMA" ∈ indicators ++ extra) ↔ "EMA" ∈ indicators := by
    rw [List.mem_append, or_iff_left]
    intro hmem
    exact (hx _ hmem).2.2 rfl
  simp only [calcIndicatorsCore, hR, hM, hE]

/-- Witness for C9: appending the unknown name `FOO` to a concrete request
leaves the response unchanged. -/
theorem calc_indicators_unknown_ignored_witness :
    calcIndicatorsCore trivImpls [] (["RSI"] ++ ["FOO"]) =
      calcIndicatorsCore trivImpls [] ["RSI"] :=
  calc_indicators_unknown_ignored trivImpls [] ["RSI"] ["FOO"] (by decide)

/-- C10: a request that omits the indicator-name list, or supplies an empty
one, succeeds with an empty indicator mapping, for every closing-price
series (present, absent, or arbitrary) and every library behaviour. -/
theorem calculate_indicators_empty_names (t : IndicatorImpls)
    (cl : Option (List F)) :
    calculate_indicators t ⟨cl, none⟩ = .ok {} ∧
    calculate_indicators t ⟨cl, some []⟩ = .ok {} :=
  ⟨rfl, rfl⟩

/-- C8: the EMA at the fixed periods 7 and 25 preserves the input length;
over an input shorter than the period every entry is `null`; over an input
at least as long, an entry is a (finite) number exactly from index
`period - 1` on and `null` strictly below it. -/
theorem ema_warmup (p : Nat) (hp : p = 7 ∨ p = 25) (xs : List ℚ) :
    (ema p xs).length = xs.length ∧
    (xs.length < p → ∀ o ∈ ema p xs, o = none) ∧
    (p ≤ xs.length → ∀ (i : Nat) (hi : i < (ema p xs).length),
      (((ema p xs).get ⟨i, hi⟩).isSome = true ↔ p - 1 ≤ i)) := by
  have hp1 : 1 ≤ p := by rcases hp with hh | hh <;> omega
  exact ⟨ema_length p xs hp1,
    fun hshort => ema_all_none_of_short p xs hshort,
    fun hlong i hi => ema_get_isSome_iff p xs hp1 hlong i hi⟩

/-- Witness for C8: the EMA of period 7 over a concrete 7-element series. -/
theorem ema_warmup_witness :
    (7 = 7 ∨ 7 = 25) ∧
    ((ema 7 [1, 2, 3, 4, 5, 6, 7]).length =
        ([1, 2, 3, 4, 5, 6, 7] : List ℚ).length ∧
      (([1, 2, 3, 4, 5, 6, 7] : List ℚ).length < 7 →
        ∀ o ∈ ema 7 [1, 2, 3, 4, 5, 6, 7], o = none) ∧
      (7 ≤ ([1, 2, 3, 4, 5, 6, 7] : List ℚ).length →
        ∀ (i : Nat) (hi : i < (ema 7 [1, 2, 3, 4, 5, 6, 7]).length),
          (((ema 7 [1, 2, 3, 4, 5, 6, 7]).get ⟨i, hi⟩).isSome = true ↔
            7 - 1 ≤ i))) :=
  ⟨Or.inl rfl, ema_warmup 7 (Or.inl rfl) [1, 2, 3, 4, 5, 6, 7]⟩
